import Mathlib

/-!
Verification of the schedule-execution engine and usage-governance layer of
the threads-admin-panel repository (src/lib/schedule-executor.ts,
src/lib/api-rate-limiter.ts, src/lib/rate-limit-middleware.ts).

The embedding models JavaScript `Date` values as civil calendar dates
(year, month 1..12, day, milliseconds of day) with the standard proleptic
Gregorian calendar; `setDate`/`setMonth` follow the ECMAScript MakeDay
normalisation (day and month overflow roll into the following month/year).
Timestamps are compared through `JSDate.toMs`, the number of milliseconds
since 00:00 of January 1 of year 0 (an arbitrary origin: only differences
and comparisons matter).  Local time is taken as a fixed offset (no DST),
so adding one calendar day adds exactly 24 hours.
-/

/-- Gregorian leap-year predicate (as implemented by JS `Date`). -/
def isLeapYear (y : Int) : Prop := (y % 4 = 0 ∧ y % 100 ≠ 0) ∨ y % 400 = 0

instance (y : Int) : Decidable (isLeapYear y) := by
  unfold isLeapYear; infer_instance

/-- Number of days of month `m` (1..12) of year `y`; 0 for out-of-range months. -/
def daysInMonth (y m : Int) : Int :=
  if m = 2 then (if isLeapYear y then 29 else 28)
  else if m = 4 ∨ m = 6 ∨ m = 9 ∨ m = 11 then 30
  else if 1 ≤ m ∧ m ≤ 12 then 31
  else 0

/-- Days from January 1 to the first day of month `m` (1..12) of year `y`. -/
def daysBeforeMonth (y m : Int) : Int :=
  if m ≤ 1 then 0
  else if m = 2 then 31
  else
    (if isLeapYear y then 1 else 0) +
    (if m = 3 then 59 else if m = 4 then 90 else if m = 5 then 120
     else if m = 6 then 151 else if m = 7 then 181 else if m = 8 then 212
     else if m = 9 then 243 else if m = 10 then 273 else if m = 11 then 304
     else 334)

/-- Signed count of leap years in the interval `[0, y)`. -/
def leapYearsBefore (y : Int) : Int :=
  1 + (y - 1) / 4 - (y - 1) / 100 + (y - 1) / 400

/-- Day number (days since January 1 of year 0) of the civil date `(y, m, d)`.
Months outside 1..12 are first normalised into the year, exactly as the
ECMAScript MakeDay operation does; `d` may be any integer (day overflow is
linear). -/
def epochDay (y m d : Int) : Int :=
  365 * (y + (m - 1) / 12) + leapYearsBefore (y + (m - 1) / 12)
    + daysBeforeMonth (y + (m - 1) / 12) ((m - 1) % 12 + 1) + (d - 1)

/-- A JavaScript `Date`, decomposed into calendar fields. -/
structure JSDate where
  year : Int
  month : Int
  day : Int
  msOfDay : Int
deriving Repr, DecidableEq

def msPerDay : Int := 86400000

/-- The time value of a `Date`: milliseconds since the origin. -/
def JSDate.toMs (t : JSDate) : Int :=
  msPerDay * epochDay t.year t.month t.day + t.msOfDay

/-- Well-formed calendar dates (what an actual JS `Date` decomposes to). -/
def JSDate.Valid (t : JSDate) : Prop :=
  1 ≤ t.month ∧ t.month ≤ 12 ∧ 1 ≤ t.day ∧ t.day ≤ daysInMonth t.year t.month ∧
  0 ≤ t.msOfDay ∧ t.msOfDay < msPerDay

instance (t : JSDate) : Decidable t.Valid := by
  unfold JSDate.Valid; infer_instance

/-- JS `d.setDate(d.getDate() + n)` for a small positive `n` (the executor uses
`n = 1` and `n = 7`): day overflow spills into the following month. -/
def addDays (t : JSDate) (n : Int) : JSDate :=
  if t.day + n ≤ daysInMonth t.year t.month then
    ⟨t.year, t.month, t.day + n, t.msOfDay⟩
  else if t.month = 12 then
    ⟨t.year + 1, 1, t.day + n - daysInMonth t.year 12, t.msOfDay⟩
  else
    ⟨t.year, t.month + 1, t.day + n - daysInMonth t.year t.month, t.msOfDay⟩

/-- JS `d.setMonth(d.getMonth() + 1)`: advance by one calendar month, with
day-of-month overflow rolling into the month after (e.g. Jan 31 → Mar 3). -/
def addOneMonth (t : JSDate) : JSDate :=
  if t.month = 12 then
    if t.day ≤ daysInMonth (t.year + 1) 1 then
      ⟨t.year + 1, 1, t.day, t.msOfDay⟩
    else
      ⟨t.year + 1, 2, t.day - daysInMonth (t.year + 1) 1, t.msOfDay⟩
  else
    if t.day ≤ daysInMonth t.year (t.month + 1) then
      ⟨t.year, t.month + 1, t.day, t.msOfDay⟩
    else if t.month + 1 = 12 then
      ⟨t.year + 1, 1, t.day - daysInMonth t.year 12, t.msOfDay⟩
    else
      ⟨t.year, t.month + 2, t.day - daysInMonth t.year (t.month + 1), t.msOfDay⟩

lemma epochDay_day (y m d : Int) : epochDay y m d = epochDay y m 1 + (d - 1) := by
  unfold epochDay; ring

lemma daysInMonth_bounds (y m : Int) : 0 ≤ daysInMonth y m ∧ daysInMonth y m ≤ 31 := by
  unfold daysInMonth; split_ifs <;> omega

lemma daysInMonth_ge_28 (y m : Int) (h1 : 1 ≤ m) (h2 : m ≤ 12) :
    28 ≤ daysInMonth y m := by
  unfold daysInMonth; split_ifs <;> omega

lemma daysInMonth_junk (y m : Int) (h : ¬(1 ≤ m ∧ m ≤ 12)) : daysInMonth y m = 0 := by
  unfold daysInMonth; split_ifs <;> omega

lemma leapYearsBefore_succ (y : Int) :
    leapYearsBefore (y + 1) = leapYearsBefore y + (if isLeapYear y then 1 else 0) := by
  unfold leapYearsBefore isLeapYear
  split_ifs <;> omega

/-- First-of-month day numbers of consecutive months differ by the length of
the earlier month (after ECMAScript month normalisation). -/
lemma epochDay_month_succ (y m : Int) :
    epochDay y (m + 1) 1
      = epochDay y m 1 + daysInMonth (y + (m - 1) / 12) ((m - 1) % 12 + 1) := by
  have hqr : 12 * ((m - 1) / 12) + (m - 1) % 12 = m - 1 := by omega
  have hr0 : 0 ≤ (m - 1) % 12 := by omega
  have hr1 : (m - 1) % 12 < 12 := by omega
  have e1 : m + 1 - 1 = m := by ring
  by_cases hc : (m - 1) % 12 ≤ 10
  · have h1 : m / 12 = (m - 1) / 12 := by omega
    have h2 : m % 12 = (m - 1) % 12 + 1 := by omega
    simp only [epochDay, e1, h1, h2]
    have hdbm : ∀ yn : Int, ∀ r : Int, 0 ≤ r → r ≤ 10 →
        daysBeforeMonth yn (r + 1 + 1) = daysBeforeMonth yn (r + 1) + daysInMonth yn (r + 1) := by
      intro yn r hge hle
      interval_cases r <;>
        · simp only [daysBeforeMonth, daysInMonth]
          norm_num
          all_goals split_ifs <;> omega
    have := hdbm (y + (m - 1) / 12) ((m - 1) % 12) hr0 hc
    omega
  · have hre : (m - 1) % 12 = 11 := by omega
    have h1 : m / 12 = (m - 1) / 12 + 1 := by omega
    have h2 : m % 12 = 0 := by omega
    simp only [epochDay, e1, h1, h2, hre]
    set q := (m - 1) / 12 with hq
    have ha : y + (q + 1) = y + q + 1 := by ring
    have hb : (0 : Int) + 1 = 1 := by norm_num
    have hc : (11 : Int) + 1 = 12 := by norm_num
    rw [ha, hb, hc]
    have hLB := leapYearsBefore_succ (y + q)
    have hd1 : daysBeforeMonth (y + q + 1) 1 = 0 := by simp [daysBeforeMonth]
    have hd12 : daysBeforeMonth (y + q) 12
        = (if isLeapYear (y + q) then 1 else 0) + 334 := by
      simp [daysBeforeMonth]
    have hi12 : daysInMonth (y + q) 12 = 31 := by simp [daysInMonth]
    rw [hLB, hd1, hd12, hi12]
    split_ifs <;> ring

/-- On a date with a well-formed month field, `setDate(getDate() + n)` moves the
time value forward by exactly `n` days. -/
lemma toMs_addDays (t : JSDate) (n : Int) (hm1 : 1 ≤ t.month) (hm2 : t.month ≤ 12) :
    (addDays t n).toMs = t.toMs + n * msPerDay := by
  unfold addDays
  split_ifs with h1 h2
  · simp only [JSDate.toMs]
    have := epochDay_day t.year t.month (t.day + n)
    have := epochDay_day t.year t.month t.day
    unfold msPerDay at *
    omega
  · -- December, day overflow into January of the next year
    simp only [JSDate.toMs, h2]
    have hs := epochDay_month_succ t.year 12
    have ha : (12 - 1 : Int) / 12 = 0 := by norm_num
    have hb : (12 - 1 : Int) % 12 + 1 = 12 := by norm_num
    rw [ha, hb] at hs
    simp only [add_zero] at hs
    have he : epochDay (t.year + 1) 1 (t.day + n - daysInMonth t.year 12)
        = epochDay t.year (12 + 1) (t.day + n - daysInMonth t.year 12) := by
      simp only [epochDay]; norm_num
    rw [he, epochDay_day t.year (12 + 1) (t.day + n - daysInMonth t.year 12),
        epochDay_day t.year 12 t.day, hs]
    have := daysInMonth_bounds t.year 12
    unfold msPerDay at *
    omega
  · -- non-December, day overflow into the next month
    simp only [JSDate.toMs]
    have hs := epochDay_month_succ t.year t.month
    have ha : (t.month - 1) / 12 = 0 := by omega
    have hb : (t.month - 1) % 12 + 1 = t.month := by omega
    rw [ha, hb] at hs
    simp only [add_zero] at hs
    rw [epochDay_day t.year (t.month + 1) (t.day + n - daysInMonth t.year t.month),
        epochDay_day t.year t.month t.day, hs]
    unfold msPerDay at *
    omega

/-- For every field assignment (also ill-formed ones, needed for the
termination of the calculation loops), `setDate(getDate() + n)` with `n ≥ 1`
strictly increases the time value. -/
lemma toMs_addDays_gt (t : JSDate) (n : Int) (hn : 1 ≤ n) :
    t.toMs < (addDays t n).toMs := by
  by_cases hm : 1 ≤ t.month ∧ t.month ≤ 12
  · rw [toMs_addDays t n hm.1 hm.2]
    unfold msPerDay; nlinarith
  · unfold addDays
    have hz := daysInMonth_junk t.year t.month hm
    split_ifs with h1 h2


    · simp only [JSDate.toMs]
      have := epochDay_day t.year t.month (t.day + n)
      have := epochDay_day t.year t.month t.day
      unfold msPerDay at *
      omega
    · omega
    · simp only [JSDate.toMs]
      have hs := epochDay_month_succ t.year t.month
      have hge : 28 ≤ daysInMonth (t.year + (t.month - 1) / 12) ((t.month - 1) % 12 + 1) := by
        apply daysInMonth_ge_28 <;> omega
      rw [epochDay_day t.year (t.month + 1) (t.day + n - daysInMonth t.year t.month),
          epochDay_day t.year t.month t.day]
      unfold msPerDay at *
      nlinarith [hs, hge]

lemma daysInMonth_one (z : Int) : daysInMonth z 1 = 31 := by simp [daysInMonth]

lemma daysInMonth_eleven (z : Int) : daysInMonth z 11 = 30 := by simp [daysInMonth]

lemma daysInMonth_twelve (z : Int) : daysInMonth z 12 = 31 := by simp [daysInMonth]

lemma epochDay_year_succ (y d : Int) : epochDay (y + 1) 1 d = epochDay y 13 d := by
  simp only [epochDay]; norm_num

/-- For every field assignment, `setMonth(getMonth() + 1)` strictly increases
the time value (this backs the termination of the monthly recurrence loop). -/
lemma toMs_addOneMonth_gt (t : JSDate) : t.toMs < (addOneMonth t).toMs := by
  unfold addOneMonth
  split_ifs with h1 h2 h3 h4
  · -- December, no day overflow
    simp only [JSDate.toMs, h1]
    have hs := epochDay_month_succ t.year 12
    norm_num at hs
    rw [daysInMonth_twelve] at hs
    rw [epochDay_year_succ t.year t.day, epochDay_day t.year 13 t.day,
        epochDay_day t.year 12 t.day, hs]
    unfold msPerDay; omega
  · -- December with (ill-formed) day overflow into February
    simp only [JSDate.toMs, h1]
    have hs := epochDay_month_succ t.year 12
    norm_num at hs
    rw [daysInMonth_twelve] at hs
    have hs2 := epochDay_month_succ (t.year + 1) 1
    norm_num at hs2
    rw [daysInMonth_one] at hs2
    have he3 : epochDay (t.year + 1) 1 1 = epochDay t.year 13 1 := epochDay_year_succ t.year 1
    rw [daysInMonth_one, epochDay_day (t.year + 1) 2 (t.day - 31),
        epochDay_day t.year 12 t.day, hs2, he3, hs]
    unfold msPerDay; omega
  · -- non-December, no day overflow
    simp only [JSDate.toMs]
    have hs := epochDay_month_succ t.year t.month
    have hge : 28 ≤ daysInMonth (t.year + (t.month - 1) / 12) ((t.month - 1) % 12 + 1) := by
      apply daysInMonth_ge_28 <;> omega
    rw [epochDay_day t.year (t.month + 1) t.day, epochDay_day t.year t.month t.day, hs]
    unfold msPerDay; omega
  · -- November with day overflow into December (t.month + 1 = 12, i.e. month 11)
    have hM : t.month = 11 := by omega
    simp only [JSDate.toMs, hM]
    have hs1 := epochDay_month_succ t.year 11
    norm_num at hs1
    rw [daysInMonth_eleven] at hs1
    have hs2 := epochDay_month_succ t.year 12
    norm_num at hs2
    rw [daysInMonth_twelve] at hs2
    rw [daysInMonth_twelve, epochDay_year_succ t.year (t.day - 31),
        epochDay_day t.year 13 (t.day - 31), epochDay_day t.year 11 t.day, hs2, hs1]
    unfold msPerDay; omega
  · -- non-December with day overflow into the month after next
    simp only [JSDate.toMs]
    have hs1 := epochDay_month_succ t.year t.month
    have hs2 := epochDay_month_succ t.year (t.month + 1)
    have e2 : t.month + 1 - 1 = t.month := by ring
    rw [e2] at hs2
    have hge1 : 28 ≤ daysInMonth (t.year + (t.month - 1) / 12) ((t.month - 1) % 12 + 1) := by
      apply daysInMonth_ge_28 <;> omega
    have hge2 : 28 ≤ daysInMonth (t.year + t.month / 12) (t.month % 12 + 1) := by
      apply daysInMonth_ge_28 <;> omega
    have hb := daysInMonth_bounds t.year (t.month + 1)
    have he4 : t.month + 2 = t.month + 1 + 1 := by ring
    rw [he4, epochDay_day t.year (t.month + 1 + 1) (t.day - daysInMonth t.year (t.month + 1)),
        epochDay_day t.year t.month t.day, hs2, hs1]
    unfold msPerDay; omega

/-- `setDate(getDate() + n)` keeps a date well-formed for `1 ≤ n ≤ 7`. -/
lemma addDays_valid (t : JSDate) (n : Int) (hv : t.Valid) (hn1 : 1 ≤ n) (hn7 : n ≤ 7) :
    (addDays t n).Valid := by
  unfold JSDate.Valid at hv
  unfold addDays
  split_ifs with h1 h2
  · unfold JSDate.Valid; simp only
    omega
  · unfold JSDate.Valid; simp only
    rw [daysInMonth_one]
    rw [h2] at hv h1
    rw [daysInMonth_twelve] at hv h1
    rw [daysInMonth_twelve]
    omega
  · unfold JSDate.Valid; simp only
    have hge : 28 ≤ daysInMonth t.year (t.month + 1) := by
      apply daysInMonth_ge_28 <;> omega
    omega

/-- The `daily` branch of `ScheduleExecutor.calculateNextRun`:
`while (next <= now) next.setDate(next.getDate() + 1)`. -/
def dailyLoop (now : Int) (next : JSDate) : JSDate :=
  if next.toMs ≤ now then dailyLoop now (addDays next 1) else next
termination_by ((now + 1) - next.toMs).toNat
decreasing_by
  have := toMs_addDays_gt next 1 (by norm_num)
  omega

/-- The `weekly` branch: `while (next <= now) next.setDate(next.getDate() + 7)`. -/
def weeklyLoop (now : Int) (next : JSDate) : JSDate :=
  if next.toMs ≤ now then weeklyLoop now (addDays next 7) else next
termination_by ((now + 1) - next.toMs).toNat
decreasing_by
  have := toMs_addDays_gt next 7 (by norm_num)
  omega

/-- The `monthly` branch: `while (next <= now) next.setMonth(next.getMonth() + 1)`. -/
def monthlyLoop (now : Int) (next : JSDate) : JSDate :=
  if next.toMs ≤ now then monthlyLoop now (addOneMonth next) else next
termination_by ((now + 1) - next.toMs).toNat
decreasing_by
  have := toMs_addOneMonth_gt next
  omega

/-- `ScheduleExecutor.calculateNextRun(baseTime, frequency)`, with the wall
clock `now` (read from `new Date()` in the source) passed explicitly.  The
`default` switch case (in particular frequency `once`) returns the base time
unchanged. -/
def calculateNextRun (baseTime : JSDate) (frequency : String) (now : Int) : JSDate :=
  if frequency = "daily" then dailyLoop now baseTime
  else if frequency = "weekly" then weeklyLoop now baseTime
  else if frequency = "monthly" then monthlyLoop now baseTime
  else baseTime

/-- The daily loop always exits strictly after `now` (loop exit condition). -/
lemma dailyLoop_gt_now (now : Int) (t : JSDate) : now < (dailyLoop now t).toMs := by
  induction t using dailyLoop.induct now with
  | case1 t h ih => rw [dailyLoop]; simp only [if_pos h]; exact ih
  | case2 t h => rw [dailyLoop]; simp only [if_neg h]; omega

lemma weeklyLoop_gt_now (now : Int) (t : JSDate) : now < (weeklyLoop now t).toMs := by
  induction t using weeklyLoop.induct now with
  | case1 t h ih => rw [weeklyLoop]; simp only [if_pos h]; exact ih
  | case2 t h => rw [weeklyLoop]; simp only [if_neg h]; omega

lemma monthlyLoop_gt_now (now : Int) (t : JSDate) : now < (monthlyLoop now t).toMs := by
  induction t using monthlyLoop.induct now with
  | case1 t h ih => rw [monthlyLoop]; simp only [if_pos h]; exact ih
  | case2 t h => rw [monthlyLoop]; simp only [if_neg h]; omega

/-- The daily loop lands on the first day-step multiple of the base that is
strictly past `now`. -/
lemma dailyLoop_spec (now : Int) (t : JSDate) :
    t.Valid →
      ∃ k : ℕ, (dailyLoop now t).toMs = t.toMs + (k : Int) * msPerDay ∧
        ∀ j : ℕ, now < t.toMs + (j : Int) * msPerDay →
          (dailyLoop now t).toMs ≤ t.toMs + (j : Int) * msPerDay := by
  induction t using dailyLoop.induct now with
  | case1 t h ih =>
    intro hv
    rw [dailyLoop]; simp only [if_pos h]
    obtain ⟨k, hk, hmin⟩ := ih (addDays_valid t 1 hv (by norm_num) (by norm_num))
    have hms := toMs_addDays t 1 hv.1 hv.2.1
    refine ⟨k + 1, ?_, ?_⟩
    · rw [hk, hms]; push_cast; ring
    · intro j hj
      match j with
      | 0 => exfalso; push_cast at hj; omega
      | Nat.succ j' =>
        have hm := hmin j' (by rw [hms]; unfold msPerDay at *; push_cast at hj ⊢; omega)
        rw [hms] at hm
        unfold msPerDay at *
        push_cast at hm ⊢
        omega
  | case2 t h =>
    intro _
    rw [dailyLoop]; simp only [if_neg h]
    refine ⟨0, by push_cast; ring, ?_⟩
    intro j hj
    have hp : (0 : Int) ≤ (j : Int) * msPerDay := by unfold msPerDay; positivity
    omega

/-- Same for the weekly loop, with a seven-day step. -/
lemma weeklyLoop_spec (now : Int) (t : JSDate) :
    t.Valid →
      ∃ k : ℕ, (weeklyLoop now t).toMs = t.toMs + (k : Int) * (7 * msPerDay) ∧
        ∀ j : ℕ, now < t.toMs + (j : Int) * (7 * msPerDay) →
          (weeklyLoop now t).toMs ≤ t.toMs + (j : Int) * (7 * msPerDay) := by
  induction t using weeklyLoop.induct now with
  | case1 t h ih =>
    intro hv
    rw [weeklyLoop]; simp only [if_pos h]
    obtain ⟨k, hk, hmin⟩ := ih (addDays_valid t 7 hv (by norm_num) (by norm_num))
    have hms := toMs_addDays t 7 hv.1 hv.2.1
    refine ⟨k + 1, ?_, ?_⟩
    · rw [hk, hms]; push_cast; ring
    · intro j hj
      match j with
      | 0 => exfalso; push_cast at hj; omega
      | Nat.succ j' =>
        have hm := hmin j' (by rw [hms]; unfold msPerDay at *; push_cast at hj ⊢; omega)
        rw [hms] at hm
        unfold msPerDay at *
        push_cast at hm ⊢
        omega
  | case2 t h =>
    intro _
    rw [weeklyLoop]; simp only [if_neg h]
    refine ⟨0, by push_cast; ring, ?_⟩
    intro j hj
    have hp : (0 : Int) ≤ (j : Int) * (7 * msPerDay) := by unfold msPerDay; positivity
    omega

lemma toMs_le_iterate (j : ℕ) : ∀ t : JSDate, t.toMs ≤ (addOneMonth^[j] t).toMs := by
  induction j with
  | zero => intro t; simp
  | succ n ihn =>
    intro t
    rw [Function.iterate_succ_apply]
    exact le_trans (le_of_lt (toMs_addOneMonth_gt t)) (ihn (addOneMonth t))

/-- The monthly loop lands on the first iterate of `setMonth(+1)` from the base
that is strictly past `now`. -/
lemma monthlyLoop_spec (now : Int) (t : JSDate) :
    ∃ k : ℕ, monthlyLoop now t = addOneMonth^[k] t ∧
      ∀ j : ℕ, now < (addOneMonth^[j] t).toMs →
        (monthlyLoop now t).toMs ≤ (addOneMonth^[j] t).toMs := by
  induction t using monthlyLoop.induct now with
  | case1 t h ih =>
    rw [monthlyLoop]; simp only [if_pos h]
    obtain ⟨k, hk, hmin⟩ := ih
    refine ⟨k + 1, ?_, ?_⟩
    · rw [hk, Function.iterate_succ_apply]
    · intro j hj
      match j with
      | 0 => exfalso; simp only [Function.iterate_zero, id] at hj; omega
      | Nat.succ j' =>
        rw [Function.iterate_succ_apply] at hj ⊢
        exact hmin j' hj
  | case2 t h =>
    rw [monthlyLoop]; simp only [if_neg h]
    refine ⟨0, by simp, ?_⟩
    intro j hj
    exact toMs_le_iterate j t

/-!
## Executor model

`ScheduleExecutor` (src/lib/schedule-executor.ts).  Database calls and the
two external services (Gemini content generation, Threads publishing) are
modelled by oracle values: each `Except String _` field of an environment
records whether the corresponding `await` in the source returns normally or
throws (with the thrown message).  `Math.random()`-derived quantities are
oracle fields as well.  External-service interactions are additionally
recorded in an event trace so that "which collaborators were consulted" is
observable.
-/

/-- The per-schedule result record returned by the executor. -/
structure ScheduleExecutionResult where
  scheduleId : Nat
  success : Bool
  message : String
  error : Option String
  postId : Option Nat
  threadsPostId : Option String
deriving Repr, DecidableEq

/-- A `Schedule` row. -/
structure Schedule where
  id : Nat
  userId : Nat
  name : String
  time : JSDate
  frequency : String
  isActive : Bool
  lastRun : Option JSDate
  nextRun : Option JSDate
  runCount : Int
deriving Repr, DecidableEq

/-- A `Post` row.  `views` and `engagements` default to 0 on creation. -/
structure Post where
  id : Nat
  userId : Nat
  content : String
  status : String
  publishedAt : Option JSDate
  threadsPostId : Option String
  views : Int
  engagements : Int
  error : Option String
deriving Repr, DecidableEq

/-- An `AIGeneration` row. -/
structure AIGeneration where
  userId : Nat
  prompt : String
  generatedContent : String
  model : String
  tokensUsed : Int
deriving Repr, DecidableEq

/-- An `AdminLog` row. -/
structure AdminLog where
  action : String
  details : String
deriving Repr, DecidableEq

/-- The relational store as seen by the executor. -/
structure DB where
  schedules : List Schedule
  posts : List Post
  adminLogs : List AdminLog
  aiGenerations : List AIGeneration
deriving Repr, DecidableEq

/-- Externally visible interactions of one pipeline run. -/
inductive ExtEvent where
  | generationCall
  | threadsPublishCall
  | maintenanceQuery
deriving Repr, DecidableEq

deriving instance DecidableEq for Except

/-- Oracles consumed by one `createAndPostContent` invocation. -/
structure PostEnv where
  postCreate : Except String Nat
  threadsApi : Except String Unit
  postUpdate : Except String Unit
  successLog : Except String Unit
  rngViews : Int
  rngEngagements : Int
deriving Repr, DecidableEq

/-- Oracles consumed by one `executeSchedule` invocation. -/
structure ExecEnv where
  now : JSDate
  hasThreadsToken : Bool
  rngIdx : Nat
  genResult : Except String String
  aiGenCreate : Except String Unit
  rngTokens : Int
  postMain : PostEnv
  postFallback : PostEnv
  failLog : Except String Unit
  schedUpdate : Except String Unit
deriving Repr, DecidableEq

/-- Outcome of a pipeline step: store contents, event trace, and either a
normal return value or a thrown error. -/
structure StepOut (α : Type) where
  db : DB
  events : List ExtEvent
  result : Except String α
deriving Repr

def greetings : List String :=
  ["おはようございます！今日も素晴らしい一日になりますように✨ #挨拶 #おはよう",
   "今日も一日お疲れ様でした🌅 新しい一日の始まりです！ #朝活 #新しい日",
   "Hello! 今日も頑張りましょう💪 良い一日をお過ごしください #motivation #daily",
   "素敵な朝ですね☀️ 今日も楽しく過ごしましょう！ #morning #positive",
   "新しい一日の始まり🌱 今日はどんな発見があるでしょうか？ #新しい日 #発見"]

def topics : List String :=
  ["テクノロジーの最新トレンド", "今日の天気と気分", "おすすめの本やアプリ",
   "健康とウェルネス", "創造性とインスピレーション"]

def fallbackContent : String :=
  "今日も良い一日を過ごしましょう！✨ 皆さんはどんな一日でしたか？ #日常 #つぶやき #AI"

/-- `ScheduleExecutor.createAndPostContent`.  The Post row is created with
status `published` optimistically; the Threads call is attempted only when an
access token is configured, and a failing call falls back to a demo id (the
inner try/catch); the row is then updated with the threads id and random demo
view/engagement counts, and a success log entry is written.  Any database
error is re-thrown to the caller. -/
def createAndPostContent (db : DB) (schedule : Schedule) (content : String)
    (ty : String) (env : ExecEnv) (pe : PostEnv) : StepOut ScheduleExecutionResult :=
  match pe.postCreate with
  | .error e => ⟨db, [], .error e⟩
  | .ok postId =>
    let post : Post :=
      ⟨postId, schedule.userId, content, "published", some env.now, none, 0, 0, none⟩
    let db1 : DB := { db with posts := db.posts ++ [post] }
    let threadsPostId : String :=
      if env.hasThreadsToken then
        match pe.threadsApi with
        | .ok _ => ("actual_") ++ toString env.now.toMs
        | .error _ => ("demo_") ++ toString env.now.toMs
      else ("demo_") ++ toString env.now.toMs
    let events : List ExtEvent :=
      if env.hasThreadsToken then [ExtEvent.threadsPublishCall] else []
    match pe.postUpdate with
    | .error e => ⟨db1, events, .error e⟩
    | .ok _ =>
      let post2 : Post :=
        { post with threadsPostId := some threadsPostId,
                    views := pe.rngViews, engagements := pe.rngEngagements }
      let db2 : DB := { db1 with posts := db1.posts.map fun p => if p.id = postId then post2 else p }
      match pe.successLog with
      | .error e => ⟨db2, events, .error e⟩
      | .ok _ =>
        let db3 : DB :=
          { db2 with adminLogs := db2.adminLogs ++
              [⟨"schedule_executed",
                ("Schedule executed successfully: ") ++ schedule.name ++
                  (" - Post ID: ") ++ toString postId ++ (" - Threads ID: ") ++ threadsPostId⟩] }
        ⟨db3, events,
          .ok ⟨schedule.id, true, ty ++ (" executed successfully"),
               none, some postId, some threadsPostId⟩⟩

/-- `ScheduleExecutor.executeGreetingPost`: a random canned greeting. -/
def executeGreetingPost (db : DB) (schedule : Schedule) (env : ExecEnv) :
    StepOut ScheduleExecutionResult :=
  createAndPostContent db schedule (greetings.getD env.rngIdx ("")) ("greeting_post") env env.postMain

/-- `ScheduleExecutor.executeAIPost`: generate content with Gemini, record the
generation, then post; any error inside the try block falls back to posting a
static template (`fallback_post`). -/
def executeAIPost (db : DB) (schedule : Schedule) (env : ExecEnv) :
    StepOut ScheduleExecutionResult :=
  match env.genResult with
  | .error _ =>
    match createAndPostContent db schedule fallbackContent ("fallback_post") env env.postFallback with
    | ⟨db2, evs, res⟩ => ⟨db2, ExtEvent.generationCall :: evs, res⟩
  | .ok content =>
    match env.aiGenCreate with
    | .error _ =>
      match createAndPostContent db schedule fallbackContent ("fallback_post") env env.postFallback with
      | ⟨db2, evs, res⟩ => ⟨db2, ExtEvent.generationCall :: evs, res⟩
    | .ok _ =>
      match createAndPostContent
          { db with aiGenerations := db.aiGenerations ++
              [⟨schedule.userId, topics.getD env.rngIdx (""), content,
                "gemini-1.5-flash", env.rngTokens⟩] }
          schedule content ("ai_post") env env.postMain with
      | ⟨db2, evs, .ok res⟩ => ⟨db2, ExtEvent.generationCall :: evs, .ok res⟩
      | ⟨db2, evs, .error _⟩ =>
        match createAndPostContent db2 schedule fallbackContent ("fallback_post") env env.postFallback with
        | ⟨db3, evs2, res2⟩ => ⟨db3, ExtEvent.generationCall :: (evs ++ evs2), res2⟩

/-- `ScheduleExecutor.executeGenericPost`. -/
def executeGenericPost (db : DB) (schedule : Schedule) (env : ExecEnv) :
    StepOut ScheduleExecutionResult :=
  createAndPostContent db schedule
    (("定期投稿: ") ++ schedule.name ++ (" 📅 ") ++ toString env.now.toMs)
    ("generic_post") env env.postMain

/-- `ScheduleExecutor.executeSchedule`: dispatch on the schedule name; on a
thrown error, write a failure log entry and return a failed result (if that
log write itself throws, the error propagates to the sweep loop). -/
def executeSchedule (db : DB) (schedule : Schedule) (env : ExecEnv) :
    StepOut ScheduleExecutionResult :=
  match (if schedule.name = "毎日の挨拶投稿" then executeGreetingPost db schedule env
         else if schedule.name = "AI自動投稿" then executeAIPost db schedule env
         else executeGenericPost db schedule env) with
  | ⟨db2, evs, .ok res⟩ => ⟨db2, evs, .ok res⟩
  | ⟨db2, evs, .error e⟩ =>
    match env.failLog with
    | .error e2 => ⟨db2, evs, .error e2⟩
    | .ok _ =>
      ⟨{ db2 with adminLogs := db2.adminLogs ++
           [⟨"schedule_execution_failed",
             ("Schedule execution failed: ") ++ schedule.name ++ (" - ") ++ e⟩] },
        evs,
        .ok ⟨schedule.id, false, "Execution failed", some e, none, none⟩⟩

/-- `ScheduleExecutor.updateScheduleAfterExecution`: always set `lastRun` and
bump `runCount`; recompute `nextRun` only on success of a non-`once`
schedule; deactivate a `once` schedule. -/
def updateScheduleAfterExecution (schedule : Schedule) (success : Bool) (now : JSDate) : Schedule :=
  let base := { schedule with lastRun := some now, runCount := schedule.runCount + 1 }
  if success ∧ schedule.frequency ≠ "once" then
    { base with nextRun := some (calculateNextRun schedule.time schedule.frequency now.toMs) }
  else if schedule.frequency = "once" then
    { base with isActive := false }
  else base

/-- `prisma.schedule.update`: replace the row with the matching id. -/
def writeSchedule (db : DB) (s : Schedule) : DB :=
  { db with schedules := db.schedules.map fun x => if x.id = s.id then s else x }

def nextRunKey (s : Schedule) : Int :=
  match s.nextRun with
  | some d => d.toMs
  | none => 0

def insertByNextRun (s : Schedule) : List Schedule → List Schedule
  | [] => [s]
  | x :: xs => if nextRunKey s ≤ nextRunKey x then s :: x :: xs else x :: insertByNextRun s xs

/-- Stable sort by ascending `nextRun` (the Prisma `orderBy`). -/
def sortByNextRun : List Schedule → List Schedule
  | [] => []
  | x :: xs => insertByNextRun x (sortByNextRun xs)

/-- `ScheduleExecutor.getDueSchedules`: active schedules with
`nextRun ≤ now`, ordered by `nextRun` ascending. -/
def getDueSchedules (schedules : List Schedule) (nowMs : Int) : List Schedule :=
  sortByNextRun (schedules.filter fun s =>
    s.isActive && (match s.nextRun with
      | some d => decide (d.toMs ≤ nowMs)
      | none => false))

/-- The per-schedule loop body of `executeSchedules`: execute, push the
result, then update the schedule; a throw from either step is caught and
pushed as a failure entry (so a failing update yields a second entry for the
same schedule, as in the source). -/
def processDue (envs : Nat → ExecEnv) : DB → Nat → List Schedule →
    DB × List ExtEvent × List ScheduleExecutionResult
  | db, _, [] => (db, [], [])
  | db, i, s :: rest =>
    let env := envs i
    let r := executeSchedule db s env
    match r.result with
    | .ok result =>
      match env.schedUpdate with
      | .ok _ =>
        let db2 := writeSchedule r.db (updateScheduleAfterExecution s result.success env.now)
        let out := processDue envs db2 (i + 1) rest
        (out.1, r.events ++ out.2.1, result :: out.2.2)
      | .error e =>
        let out := processDue envs r.db (i + 1) rest
        (out.1, r.events ++ out.2.1,
         result :: (⟨s.id, false, "Execution failed", some e, none, none⟩ : ScheduleExecutionResult) :: out.2.2)
    | .error e =>
      let out := processDue envs r.db (i + 1) rest
      (out.1, r.events ++ out.2.1,
       (⟨s.id, false, "Execution failed", some e, none, none⟩ : ScheduleExecutionResult) :: out.2.2)

/-- Scheduler state: the run-state flag plus the store. -/
structure SystemState where
  isRunning : Bool
  db : DB

/-- Oracles of one sweep: outcome of the due-set query, the sweep clock, and
the per-schedule environments (indexed by position in the due list). -/
structure GlobalEnv where
  dueQuery : Except String Unit
  sweepNow : JSDate
  envs : Nat → ExecEnv

/-- `ScheduleExecutor.executeSchedules`: guarded by `isRunning`; reads the due
set, processes each due schedule, and clears the flag in `finally` whether
the batch succeeds or a critical error is re-thrown. -/
def executeSchedules (st : SystemState) (g : GlobalEnv) :
    SystemState × List ExtEvent × Except String (List ScheduleExecutionResult) :=
  if st.isRunning then (st, [], .ok [])
  else
    match g.dueQuery with
    | .error e => (⟨false, st.db⟩, [], .error e)
    | .ok _ =>
      let due := getDueSchedules st.db.schedules g.sweepNow.toMs
      let out := processDue g.envs st.db 0 due
      (⟨false, out.1⟩, out.2.1, .ok out.2.2)

/-!
## Usage governor and middleware models

`ApiRateLimiter` (src/lib/api-rate-limiter.ts) and the middleware of
src/lib/rate-limit-middleware.ts.  Database reads/writes are again oracle
parameters; setting values are modelled as already-parsed integers (the
source applies `parseInt` to the stored strings).  The JS expression
`maxTokensPerDay * 0.8` is modelled in exact rational arithmetic, stated as
`5 * x < 4 * maxTokensPerDay` over the integers.
-/

/-- The record returned by `checkRateLimit`. -/
structure RateLimitResult where
  allowed : Bool
  limit : Int
  remaining : Int
  reset : Int
  retryAfter : Option Int
deriving Repr, DecidableEq

/-- The in-memory `usageCache`: key, count, reset time (ms). -/
abbrev UsageCache := List (String × Int × Int)

def cacheGet : UsageCache → String → Option (Int × Int)
  | [], _ => none
  | (k, c, r) :: rest, key => if k = key then some (c, r) else cacheGet rest key

/-- `Map.set`: the new binding shadows any earlier binding of the key. -/
def cacheSet (m : UsageCache) (key : String) (c r : Int) : UsageCache :=
  (key, c, r) :: m

/-- `ApiRateLimiter.checkRateLimit`.  `customLimit` is the outcome of
`getCustomRateLimit` (a settings read whose failure is caught internally and
yields `none`); per JS truthiness, a custom limit of 0 also falls back to
`limitPerHour`.  The usage-record and notification writes catch their own
errors and are not observable here. -/
def checkRateLimit (cache : UsageCache) (nowMs : Int)
    (identifier endpoint method : String) (limitPerHour : Int)
    (customLimit : Option Int) : UsageCache × RateLimitResult :=
  let key := identifier ++ (":") ++ endpoint ++ (":") ++ method
  let resetTime := nowMs + 3600000
  let usage : Int × Int :=
    match cacheGet cache key with
    | none => (0, resetTime)
    | some (c, r) => if r < nowMs then (0, resetTime) else (c, r)
  let actualLimit :=
    match customLimit with
    | some c => if c = 0 then limitPerHour else c
    | none => limitPerHour
  let count := usage.1 + 1
  let remaining := max 0 (actualLimit - count)
  let allowed := decide (count ≤ actualLimit)
  (cacheSet cache key count usage.2,
   ⟨allowed, actualLimit, remaining, usage.2,
    if allowed then none else some (-((nowMs - usage.2) / 1000))⟩)

/-- Iterate `checkRateLimit` over a list of call times (same key and limits). -/
def checkRateLimitSeq (identifier endpoint method : String) (limitPerHour : Int)
    (customLimit : Option Int) : UsageCache → List Int → UsageCache × List RateLimitResult
  | cache, [] => (cache, [])
  | cache, t :: ts =>
    let step := checkRateLimit cache t identifier endpoint method limitPerHour customLimit
    let rest := checkRateLimitSeq identifier endpoint method limitPerHour customLimit step.1 ts
    (rest.1, step.2 :: rest.2)

/-- Outcome of one `trackTokenUsage` call: return value plus which
notifications were created. -/
structure TokenCheckOutcome where
  allowed : Bool
  denyNotified : Bool
  warnNotified : Bool
deriving Repr, DecidableEq

/-- `ApiRateLimiter.trackTokenUsage`.  `setting` is the `max_tokens_per_day`
read (`none` = row absent, default 50000), `agg` the aggregate of today's
`AIGeneration.tokensUsed` for the user (`none` = no rows, treated as 0).
Every thrown error inside is swallowed by the outer catch, which returns
`true` (fail open). -/
def trackTokenUsage (setting : Except String (Option Int))
    (agg : Except String (Option Int)) (tokens : Int)
    (denyNotif warnNotif : Except String Unit) : TokenCheckOutcome :=
  match setting with
  | .error _ => ⟨true, false, false⟩
  | .ok so =>
    let maxTokensPerDay := so.getD 50000
    match agg with
    | .error _ => ⟨true, false, false⟩
    | .ok ao =>
      let currentUsage := ao.getD 0
      let newTotal := currentUsage + tokens
      if newTotal > maxTokensPerDay then
        match denyNotif with
        | .error _ => ⟨true, false, false⟩
        | .ok _ => ⟨false, true, false⟩
      else if 5 * currentUsage < 4 * maxTokensPerDay ∧ 4 * maxTokensPerDay ≤ 5 * newTotal then
        match warnNotif with
        | .error _ => ⟨true, false, false⟩
        | .ok _ => ⟨true, false, true⟩
      else ⟨true, false, false⟩

/-- A day of `trackTokenUsage` calls for one user: each allowed call's tokens
are recorded as Token Spend Records by the caller, so the aggregate `S`
advances by `t` exactly on allowed calls (notification writes succeed). -/
def runTokenDay (maxTokensPerDay : Int) : Int → List Int → List TokenCheckOutcome
  | _, [] => []
  | s, t :: ts =>
    let o := trackTokenUsage (.ok (some maxTokensPerDay)) (.ok (some s)) t (.ok ()) (.ok ())
    o :: runTokenDay maxTokensPerDay (if o.allowed then s + t else s) ts

/-- A (simplified) HTTP response: status code and body. -/
structure NextResponse where
  status : Nat
  body : String
deriving Repr, DecidableEq

/-- `createRateLimitMiddleware`'s wrapper: run `checkRateLimit` (its outcome —
or thrown error — is the oracle `rl`); deny with 429 when not allowed; on an
internal error, the catch runs the wrapped handler.  The returned `Bool`
records whether the handler ran. -/
def rateLimitMiddleware (rl : Except String RateLimitResult)
    (handler : NextResponse) : Bool × NextResponse :=
  match rl with
  | .error _ => (true, handler)
  | .ok r =>
    if r.allowed then (true, handler)
    else (false, ⟨429, "Too Many Requests"⟩)

/-- `createTokenLimitMiddleware`'s wrapper: same shape over `trackTokenUsage`. -/
def tokenLimitMiddleware (tl : Except String Bool)
    (handler : NextResponse) : Bool × NextResponse :=
  match tl with
  | .error _ => (true, handler)
  | .ok allowed =>
    if allowed then (true, handler)
    else (false, ⟨429, "Token Limit Exceeded"⟩)

/-- The settings rows read by `checkMaintenanceMode`, with
`scheduled_maintenance` as an already-JSON-parsed window (`.error` = parse
failure, caught in the source). -/
structure MaintSettings where
  maintenanceMode : Option String
  maintenanceMessage : Option String
  emergencyAccess : Option String
  scheduledMaintenance : Option (Except String (Int × Int))
deriving Repr, DecidableEq

structure MaintStatus where
  isMaintenanceMode : Bool
  emergencyAccess : Bool
  message : Option String
deriving Repr, DecidableEq

/-- `checkMaintenanceMode`: reads the settings; a flag value `true` or a
scheduled window containing `now` means maintenance; a failed settings read
is caught and reported as not-in-maintenance with emergency access off. -/
def checkMaintenanceMode (q : Except String MaintSettings) (nowMs : Int) : MaintStatus :=
  match q with
  | .error _ => ⟨false, false, none⟩
  | .ok s =>
    let m0 := s.maintenanceMode = some ("true")
    let m1 :=
      if m0 then true
      else
        match s.scheduledMaintenance with
        | some (.ok (start, stop)) => decide (start ≤ nowMs ∧ nowMs ≤ stop)
        | some (.error _) => false
        | none => false
    ⟨m1, s.emergencyAccess = some ("true"),
     some (match s.maintenanceMessage with
           | some msg => if msg = "" then "システムメンテナンス中です。しばらくお待ちください。" else msg
           | none => "システムメンテナンス中です。しばらくお待ちください。")⟩

/-- `createMaintenanceMiddleware`'s wrapper: during maintenance, only admin
settings/notifications/maintenance APIs (`isAdminApi`) or enabled emergency
access reach the handler; everything else gets a 503.  The `Bool` records
whether the handler ran. -/
def maintenanceMiddleware (q : Except String MaintSettings) (nowMs : Int)
    (isAdminApi : Bool) (handler : NextResponse) : Bool × NextResponse :=
  let ms := checkMaintenanceMode q nowMs
  if ms.isMaintenanceMode then
    if isAdminApi || ms.emergencyAccess then (true, handler)
    else (false, ⟨503, "Service Unavailable"⟩)
  else (true, handler)

/-!
## Helper lemmas shared between claims
-/

lemma mem_insertByNextRun {s x : Schedule} {l : List Schedule} :
    s ∈ insertByNextRun x l ↔ s = x ∨ s ∈ l := by
  induction l with
  | nil => simp [insertByNextRun]
  | cons y ys ih =>
    unfold insertByNextRun
    split_ifs with h
    · simp
    · simp only [List.mem_cons, ih]
      tauto

lemma mem_sortByNextRun {s : Schedule} {l : List Schedule} :
    s ∈ sortByNextRun l ↔ s ∈ l := by
  induction l with
  | nil => simp [sortByNextRun]
  | cons y ys ih =>
    unfold sortByNextRun
    rw [mem_insertByNextRun, ih]
    simp

/-!
## Claim theorems
-/

/-- C2: for every well-formed base instant and fixed now, `calculateNextRun`
returns the base unchanged for frequency `once`; for `daily`, `weekly` and
`monthly` it returns the smallest instant of the form "base advanced by k
recurrence steps" (k ≥ 0; step one day / seven days / one calendar month)
that is strictly greater than now — strictly past now and congruent to the
base modulo the recurrence step. -/
theorem calculateNextRun_correct (base : JSDate) (now : Int) (hv : base.Valid) :
    calculateNextRun base ("once") now = base ∧
    (∃ k : ℕ, (calculateNextRun base ("daily") now).toMs = base.toMs + (k : Int) * msPerDay ∧
       now < (calculateNextRun base ("daily") now).toMs ∧
       ∀ j : ℕ, now < base.toMs + (j : Int) * msPerDay →
         (calculateNextRun base ("daily") now).toMs ≤ base.toMs + (j : Int) * msPerDay) ∧
    (∃ k : ℕ, (calculateNextRun base ("weekly") now).toMs = base.toMs + (k : Int) * (7 * msPerDay) ∧
       now < (calculateNextRun base ("weekly") now).toMs ∧
       ∀ j : ℕ, now < base.toMs + (j : Int) * (7 * msPerDay) →
         (calculateNextRun base ("weekly") now).toMs ≤ base.toMs + (j : Int) * (7 * msPerDay)) ∧
    (∃ k : ℕ, calculateNextRun base ("monthly") now = addOneMonth^[k] base ∧
       now < (calculateNextRun base ("monthly") now).toMs ∧
       ∀ j : ℕ, now < (addOneMonth^[j] base).toMs →
         (calculateNextRun base ("monthly") now).toMs ≤ (addOneMonth^[j] base).toMs) := by
  have hd : calculateNextRun base ("daily") now = dailyLoop now base := rfl
  have hw : calculateNextRun base ("weekly") now = weeklyLoop now base := rfl
  have hm : calculateNextRun base ("monthly") now = monthlyLoop now base := rfl
  have ho : calculateNextRun base ("once") now = base := rfl
  refine ⟨ho, ?_, ?_, ?_⟩
  · obtain ⟨k, hk, hmin⟩ := dailyLoop_spec now base hv
    exact ⟨k, by rw [hd]; exact hk, by rw [hd]; exact dailyLoop_gt_now now base,
           by rw [hd]; exact hmin⟩
  · obtain ⟨k, hk, hmin⟩ := weeklyLoop_spec now base hv
    exact ⟨k, by rw [hw]; exact hk, by rw [hw]; exact weeklyLoop_gt_now now base,
           by rw [hw]; exact hmin⟩
  · obtain ⟨k, hk, hmin⟩ := monthlyLoop_spec now base
    exact ⟨k, by rw [hm]; exact hk, by rw [hm]; exact monthlyLoop_gt_now now base,
           by rw [hm]; exact hmin⟩

/-- Witness for C2 at 2025-01-15 09:00. -/
theorem calculateNextRun_correct_witness :
    (JSDate.mk 2025 1 15 32400000).Valid ∧
      calculateNextRun (JSDate.mk 2025 1 15 32400000) ("once") 0 = JSDate.mk 2025 1 15 32400000 :=
  ⟨by decide, (calculateNextRun_correct (JSDate.mk 2025 1 15 32400000) 0 (by decide)).1⟩

/-- C1 counterexample: a `daily` schedule whose execution fails keeps its old
(past-due) `nextRun` — the bookkeeping step does not recompute `nextRun` to a
future instant on failure, so the schedule is selected again as due at the
same instant, contrary to the claim. -/
theorem updateSchedule_failure_keeps_due_cex :
    ((updateScheduleAfterExecution
        (Schedule.mk 1 1 ("テスト投稿") (JSDate.mk 2025 1 1 0) ("daily") true none
          (some (JSDate.mk 2025 1 1 0)) 0) false (JSDate.mk 2025 1 2 0)).nextRun
        = some (JSDate.mk 2025 1 1 0)) ∧
    (JSDate.mk 2025 1 1 0).toMs ≤ (JSDate.mk 2025 1 2 0).toMs ∧
    updateScheduleAfterExecution
        (Schedule.mk 1 1 ("テスト投稿") (JSDate.mk 2025 1 1 0) ("daily") true none
          (some (JSDate.mk 2025 1 1 0)) 0) false (JSDate.mk 2025 1 2 0)
      ∈ getDueSchedules
          [updateScheduleAfterExecution
            (Schedule.mk 1 1 ("テスト投稿") (JSDate.mk 2025 1 1 0) ("daily") true none
              (some (JSDate.mk 2025 1 1 0)) 0) false (JSDate.mk 2025 1 2 0)]
          (JSDate.mk 2025 1 2 0).toMs := by
  refine ⟨by decide, by decide, by decide⟩

/-- C1 amended: the bookkeeping step always sets `lastRun` to the execution
instant and increments `runCount` by exactly 1, and on a successful execution
of a daily/weekly/monthly schedule recomputes `nextRun` to a future instant;
but after a failed execution of a non-`once` schedule `nextRun` is left
unchanged, so such a schedule remains due at the same instant and is retried
on every subsequent sweep. -/
theorem updateScheduleAfterExecution_amended (s : Schedule) (success : Bool) (now : JSDate) :
    (updateScheduleAfterExecution s success now).lastRun = some now ∧
    (updateScheduleAfterExecution s success now).runCount = s.runCount + 1 ∧
    (success = true →
      (s.frequency = ("daily") ∨ s.frequency = ("weekly") ∨ s.frequency = ("monthly")) →
      ∃ d, (updateScheduleAfterExecution s success now).nextRun = some d ∧ now.toMs < d.toMs) ∧
    (success = false → s.frequency ≠ ("once") →
      (updateScheduleAfterExecution s success now).nextRun = s.nextRun) := by
  unfold updateScheduleAfterExecution
  split_ifs with h1 h2
  · refine ⟨rfl, rfl, ?_, ?_⟩
    · intro _ hfreq
      refine ⟨_, rfl, ?_⟩
      rcases hfreq with h | h | h <;> rw [h]
      · exact dailyLoop_gt_now now.toMs s.time
      · exact weeklyLoop_gt_now now.toMs s.time
      · exact monthlyLoop_gt_now now.toMs s.time
    · intro hsf _
      rw [hsf] at h1
      simp at h1
  · refine ⟨rfl, rfl, ?_, ?_⟩
    · intro _ hfreq
      rcases hfreq with h | h | h <;> rw [h2] at h <;> exact absurd h (by decide)
    · intro _ hne
      exact absurd h2 hne
  · refine ⟨rfl, rfl, ?_, ?_⟩
    · intro hs hfreq
      exfalso
      apply h1
      refine ⟨hs, ?_⟩
      rcases hfreq with h | h | h <;> rw [h] <;> decide
    · intro _ _
      rfl

/-- Witness for the amended C1 at a concrete daily schedule. -/
theorem updateScheduleAfterExecution_amended_witness :
    ∃ d, (updateScheduleAfterExecution
        (Schedule.mk 2 1 ("毎日の挨拶投稿") (JSDate.mk 2025 1 1 32400000) ("daily") true none none 3)
        true (JSDate.mk 2025 1 2 0)).nextRun = some d ∧ (JSDate.mk 2025 1 2 0).toMs < d.toMs :=
  (updateScheduleAfterExecution_amended
      (Schedule.mk 2 1 ("毎日の挨拶投稿") (JSDate.mk 2025 1 1 32400000) ("daily") true none none 3)
      true (JSDate.mk 2025 1 2 0)).2.2.1 rfl (Or.inl rfl)

/-- C3: calling `executeSchedules` while a sweep is already running is a pure
no-op returning an empty result list (state untouched, nothing processed, no
external calls), so two sweeps never run at once; and when a sweep does run,
the running flag is back to `false` in the final state, whether the batch
returns normally or the due-set query throws. -/
theorem executeSchedules_no_reentry (st : SystemState) (g : GlobalEnv) :
    (st.isRunning = true → executeSchedules st g = (st, [], Except.ok [])) ∧
    (st.isRunning = false → (executeSchedules st g).1.isRunning = false) := by
  constructor
  · intro h
    unfold executeSchedules
    rw [if_pos h]
  · intro h
    unfold executeSchedules
    rw [if_neg (by simp [h])]
    cases g.dueQuery <;> simp

/-- Witness for C3: a second invocation during a sweep returns the state and
an empty list unchanged. -/
theorem executeSchedules_no_reentry_witness :
    executeSchedules ⟨true, ⟨[], [], [], []⟩⟩
        ⟨Except.ok (), JSDate.mk 2025 1 1 0,
         fun _ => ⟨JSDate.mk 2025 1 1 0, false, 0, Except.ok (""), Except.ok (), 0,
                   ⟨Except.ok 1, Except.ok (), Except.ok (), Except.ok (), 0, 0⟩,
                   ⟨Except.ok 2, Except.ok (), Except.ok (), Except.ok (), 0, 0⟩,
                   Except.ok (), Except.ok ()⟩⟩
      = (⟨true, ⟨[], [], [], []⟩⟩, [], Except.ok []) :=
  (executeSchedules_no_reentry _ _).1 rfl

/-- C8: after its single execution a `once` schedule is deactivated
(`isActive = false`, whether or not the execution succeeded), an inactive
schedule is never selected by the due-set query, and the post-execution
schedule write replaces the row in place — it never deletes a row. -/
theorem once_schedule_deactivated (s : Schedule) (success : Bool) (now : JSDate)
    (l : List Schedule) (db : DB) (nowMs : Int) :
    (s.frequency = ("once") → (updateScheduleAfterExecution s success now).isActive = false) ∧
    (s.isActive = false → s ∉ getDueSchedules l nowMs) ∧
    (writeSchedule db s).schedules.length = db.schedules.length := by
  refine ⟨?_, ?_, ?_⟩
  · intro h
    unfold updateScheduleAfterExecution
    split_ifs with h1
    · exact absurd h h1.2
    · rfl
  · intro h hmem
    unfold getDueSchedules at hmem
    rw [mem_sortByNextRun] at hmem
    rw [List.mem_filter] at hmem
    rw [h] at hmem
    simp at hmem
  · unfold writeSchedule
    simp

/-- Witness for C8: a concrete `once` schedule is inactive after execution. -/
theorem once_schedule_deactivated_witness :
    (updateScheduleAfterExecution
        (Schedule.mk 3 1 ("単発投稿") (JSDate.mk 2025 2 1 0) ("once") true none
          (some (JSDate.mk 2025 2 1 0)) 0) true (JSDate.mk 2025 2 1 60000)).isActive = false :=
  (once_schedule_deactivated
      (Schedule.mk 3 1 ("単発投稿") (JSDate.mk 2025 2 1 0) ("once") true none
        (some (JSDate.mk 2025 2 1 0)) 0) true (JSDate.mk 2025 2 1 60000) [] ⟨[], [], [], []⟩ 0).1 rfl

lemma cacheGet_set (m : UsageCache) (k : String) (c r : Int) :
    cacheGet (cacheSet m k c r) k = some (c, r) := by
  simp [cacheGet, cacheSet]

/-- One `checkRateLimit` call inside a live window: the counter is
incremented before comparing, and the window's reset time is kept. -/
lemma checkRateLimit_hit (cache : UsageCache) (now : Int) (idf ep mth : String)
    (L c0 r0 : Int)
    (hc : cacheGet cache (idf ++ (":") ++ ep ++ (":") ++ mth) = some (c0, r0))
    (hnow : ¬ r0 < now) :
    (checkRateLimit cache now idf ep mth L none).1
        = cacheSet cache (idf ++ (":") ++ ep ++ (":") ++ mth) (c0 + 1) r0 ∧
    (checkRateLimit cache now idf ep mth L none).2.allowed = decide (c0 + 1 ≤ L) := by
  simp only [checkRateLimit]
  rw [hc]
  simp [hnow]

/-- One `checkRateLimit` call on a missing or expired window: a fresh window
starts with count 1 and reset an hour ahead. -/
lemma checkRateLimit_fresh (cache : UsageCache) (now : Int) (idf ep mth : String)
    (L : Int)
    (h : cacheGet cache (idf ++ (":") ++ ep ++ (":") ++ mth) = none ∨
         ∃ c0 r0, cacheGet cache (idf ++ (":") ++ ep ++ (":") ++ mth) = some (c0, r0) ∧ r0 < now) :
    (checkRateLimit cache now idf ep mth L none).1
        = cacheSet cache (idf ++ (":") ++ ep ++ (":") ++ mth) 1 (now + 3600000) ∧
    (checkRateLimit cache now idf ep mth L none).2.allowed = decide (1 ≤ L) := by
  simp only [checkRateLimit]
  rcases h with h | ⟨c0, r0, hc, hr⟩
  · rw [h]
    simp
  · rw [hc]
    simp [hr]

/-- Counting invariant: starting from a cache whose window for the key holds
`(c0, r0)`, a run of calls all at times within the window yields counts
`c0+1, c0+2, …` with `allowed = count ≤ L`, and leaves the window's reset
time unchanged. -/
lemma checkRateLimitSeq_invariant (idf ep mth : String) (L r0 : Int) :
    ∀ (ts : List Int), (∀ t ∈ ts, t ≤ r0) →
      ∀ (cache : UsageCache) (c0 : Int),
        cacheGet cache (idf ++ (":") ++ ep ++ (":") ++ mth) = some (c0, r0) →
        (checkRateLimitSeq idf ep mth L none cache ts).2.length = ts.length ∧
        (∀ i : ℕ, ∀ hi : i < (checkRateLimitSeq idf ep mth L none cache ts).2.length,
          ((checkRateLimitSeq idf ep mth L none cache ts).2.get ⟨i, hi⟩).allowed
            = decide (c0 + (i : Int) + 1 ≤ L)) ∧
        cacheGet (checkRateLimitSeq idf ep mth L none cache ts).1
            (idf ++ (":") ++ ep ++ (":") ++ mth) = some (c0 + ts.length, r0) := by
  intro ts
  induction ts with
  | nil =>
    intro _ cache c0 hc
    refine ⟨rfl, ?_, ?_⟩
    · intro i hi
      exact absurd hi (by simp [checkRateLimitSeq])
    · simpa [checkRateLimitSeq] using hc
  | cons t ts ih =>
    intro hts cache c0 hc
    have hnow : ¬ r0 < t := by
      have := hts t (by simp)
      omega
    obtain ⟨hc1, ha1⟩ := checkRateLimit_hit cache t idf ep mth L c0 r0 hc hnow
    have hget1 : cacheGet (checkRateLimit cache t idf ep mth L none).1
        (idf ++ (":") ++ ep ++ (":") ++ mth) = some (c0 + 1, r0) := by
      rw [hc1]; exact cacheGet_set _ _ _ _
    obtain ⟨hlen, hall, hfin⟩ :=
      ih (fun x hx => hts x (by simp [hx])) (checkRateLimit cache t idf ep mth L none).1 (c0 + 1) hget1
    have hseq : checkRateLimitSeq idf ep mth L none cache (t :: ts)
        = ((checkRateLimitSeq idf ep mth L none (checkRateLimit cache t idf ep mth L none).1 ts).1,
           (checkRateLimit cache t idf ep mth L none).2
             :: (checkRateLimitSeq idf ep mth L none (checkRateLimit cache t idf ep mth L none).1 ts).2) := rfl
    rw [hseq]
    refine ⟨by simp [hlen], ?_, ?_⟩
    · intro i hi
      match i with
      | 0 =>
        simp only [List.get]
        rw [ha1, decide_eq_decide]
        norm_num
      | Nat.succ j =>
        simp only [List.get]
        have hj : j < (checkRateLimitSeq idf ep mth L none
            (checkRateLimit cache t idf ep mth L none).1 ts).2.length := by
          simp at hi
          omega
        rw [hall j hj, decide_eq_decide]
        push_cast
        constructor <;> intro <;> omega
    · have e : c0 + 1 + (ts.length : Int) = c0 + ((ts.length : Int) + 1) := by ring
      rw [hfin, List.length_cons]
      push_cast
      rw [e]

/-- C4: from a fresh window, the first L calls for a key are all allowed and
the (L+1)-th is denied — each call increments the counter first and compares
`count ≤ L` — and once the window's reset time has strictly elapsed, the next
call starts a new window and is allowed again. -/
theorem checkRateLimit_window (idf ep mth : String) (L t0 : Int) (hL : 1 ≤ L)
    (ts : List Int) (hts : ∀ t ∈ ts, t0 ≤ t ∧ t ≤ t0 + 3600000) :
    (checkRateLimitSeq idf ep mth L none [] (t0 :: ts)).2.length = ts.length + 1 ∧
    (∀ i : ℕ, ∀ hi : i < (checkRateLimitSeq idf ep mth L none [] (t0 :: ts)).2.length,
      ((checkRateLimitSeq idf ep mth L none [] (t0 :: ts)).2.get ⟨i, hi⟩).allowed
        = decide ((i : Int) + 1 ≤ L)) ∧
    cacheGet (checkRateLimitSeq idf ep mth L none [] (t0 :: ts)).1
        (idf ++ (":") ++ ep ++ (":") ++ mth) = some (1 + (ts.length : Int), t0 + 3600000) ∧
    (∀ t2 : Int, t0 + 3600000 < t2 →
      (checkRateLimit (checkRateLimitSeq idf ep mth L none [] (t0 :: ts)).1
          t2 idf ep mth L none).2.allowed = true) := by
  obtain ⟨hc1, ha1⟩ := checkRateLimit_fresh [] t0 idf ep mth L (Or.inl rfl)
  have hget1 : cacheGet (checkRateLimit [] t0 idf ep mth L none).1
      (idf ++ (":") ++ ep ++ (":") ++ mth) = some (1, t0 + 3600000) := by
    rw [hc1]; exact cacheGet_set _ _ _ _
  obtain ⟨hlen, hall, hfin⟩ :=
    checkRateLimitSeq_invariant idf ep mth L (t0 + 3600000) ts
      (fun x hx => (hts x hx).2) (checkRateLimit [] t0 idf ep mth L none).1 1 hget1
  have hseq : checkRateLimitSeq idf ep mth L none [] (t0 :: ts)
      = ((checkRateLimitSeq idf ep mth L none (checkRateLimit [] t0 idf ep mth L none).1 ts).1,
         (checkRateLimit [] t0 idf ep mth L none).2
           :: (checkRateLimitSeq idf ep mth L none (checkRateLimit [] t0 idf ep mth L none).1 ts).2) := rfl
  rw [hseq]
  refine ⟨by simp [hlen], ?_, ?_, ?_⟩
  · intro i hi
    match i with
    | 0 =>
      simp only [List.get]
      rw [ha1, decide_eq_decide]
      norm_num
    | Nat.succ j =>
      simp only [List.get]
      have hj : j < (checkRateLimitSeq idf ep mth L none
          (checkRateLimit [] t0 idf ep mth L none).1 ts).2.length := by
        simp at hi
        omega
      rw [hall j hj, decide_eq_decide]
      push_cast
      constructor <;> intro <;> omega
  · rw [hfin]
  · intro t2 ht2
    obtain ⟨_, ha2⟩ := checkRateLimit_fresh _ t2 idf ep mth L
      (Or.inr ⟨1 + (ts.length : Int), t0 + 3600000, hfin, ht2⟩)
    rw [ha2, decide_eq_true_eq]
    exact hL

/-- Witness for C4 with limit 2 and three in-window calls. -/
theorem checkRateLimit_window_witness :
    (checkRateLimitSeq ("user") ("api") ("GET") 2 none [] (0 :: [10, 20])).2.length = 3 :=
  (checkRateLimit_window ("user") ("api") ("GET") 2 0 (by norm_num) [10, 20] (by decide)).1

/-- C5 counterexample: with budget 100, spend-so-far 0 and estimate 101, the
claim's 80%-crossing condition holds (0 < 80 ≤ 101) yet no warning
notification is created — the deny branch returns before the 80% check. -/
theorem trackTokenUsage_deny_skips_warning_cex :
    trackTokenUsage (Except.ok (some 100)) (Except.ok (some 0)) 101
        (Except.ok ()) (Except.ok ())
      = ⟨false, true, false⟩ ∧
    (5 * (0 : Int) < 4 * 100 ∧ 4 * (100 : Int) ≤ 5 * (0 + 101)) := by
  exact ⟨by decide, by norm_num⟩

/-- On or above the 80% threshold no further warning fires, as long as the
per-call token estimates are nonnegative. -/
lemma runTokenDay_no_warn (B : Int) :
    ∀ (ts : List Int) (S : Int), 4 * B ≤ 5 * S → (∀ x ∈ ts, 0 ≤ x) →
      (runTokenDay B S ts).countP (fun o => o.warnNotified) = 0 := by
  intro ts
  induction ts with
  | nil => intro S _ _; rfl
  | cons t ts ih =>
    intro S hS hpos
    unfold runTokenDay
    rw [List.countP_cons]
    have hw : (trackTokenUsage (Except.ok (some B)) (Except.ok (some S)) t
        (Except.ok ()) (Except.ok ())).warnNotified = false := by
      unfold trackTokenUsage
      simp only [Option.getD]
      split_ifs with h1 h2
      · rfl
      · exfalso; omega
      · rfl
    have ht : 0 ≤ t := hpos t (by simp)
    have harg : 4 * B ≤ 5 * (if (trackTokenUsage (Except.ok (some B)) (Except.ok (some S)) t
        (Except.ok ()) (Except.ok ())).allowed = true then S + t else S) := by
      split_ifs <;> omega
    rw [ih _ harg (fun x hx => hpos x (by simp [hx])), hw]
    simp

/-- Across a day in which each allowed call's tokens are recorded, the 80%
warning fires at most once. -/
lemma runTokenDay_warn_once (B : Int) :
    ∀ (ts : List Int) (S : Int), (∀ x ∈ ts, 0 ≤ x) →
      (runTokenDay B S ts).countP (fun o => o.warnNotified) ≤ 1 := by
  intro ts
  induction ts with
  | nil => intro S _; simp [runTokenDay]
  | cons t ts ih =>
    intro S hpos
    unfold runTokenDay
    rw [List.countP_cons]
    by_cases hw : (trackTokenUsage (Except.ok (some B)) (Except.ok (some S)) t
        (Except.ok ()) (Except.ok ())).warnNotified = true
    · have hcross : 4 * B ≤ 5 * (S + t) ∧
          (trackTokenUsage (Except.ok (some B)) (Except.ok (some S)) t
            (Except.ok ()) (Except.ok ())).allowed = true := by
        unfold trackTokenUsage at hw
        simp only [Option.getD] at hw
        split_ifs at hw with h1 h2
        refine ⟨h2.2, ?_⟩
        unfold trackTokenUsage
        simp only [Option.getD]
        rw [if_neg h1, if_pos h2]
      rw [if_pos hcross.2]
      rw [runTokenDay_no_warn B ts (S + t) hcross.1 (fun x hx => hpos x (by simp [hx])), hw]
      simp
    · have hrec := ih (if (trackTokenUsage (Except.ok (some B)) (Except.ok (some S)) t
          (Except.ok ()) (Except.ok ())).allowed = true then S + t else S)
          (fun x hx => hpos x (by simp [hx]))
      have h0 : (if (trackTokenUsage (Except.ok (some B)) (Except.ok (some S)) t
          (Except.ok ()) (Except.ok ())).warnNotified = true then 1 else 0) = 0 := by
        simp [hw]
      omega

/-- C5 amended: with today's recorded spend S, budget B and estimate t, the
check allows exactly when `S + t ≤ B`; the 80% warning is created exactly on
allowed calls that cross the threshold (`S < 0.8B ≤ S + t` — a call that is
denied creates no warning even if it would have crossed 80%); and over a day
of calls with nonnegative estimates the warning fires at most once. -/
theorem trackTokenUsage_amended (B S t : Int) :
    ((trackTokenUsage (Except.ok (some B)) (Except.ok (some S)) t
        (Except.ok ()) (Except.ok ())).allowed = decide (S + t ≤ B)) ∧
    ((trackTokenUsage (Except.ok (some B)) (Except.ok (some S)) t
        (Except.ok ()) (Except.ok ())).warnNotified
      = decide (S + t ≤ B ∧ 5 * S < 4 * B ∧ 4 * B ≤ 5 * (S + t))) ∧
    (∀ ts : List Int, (∀ x ∈ ts, 0 ≤ x) →
      (runTokenDay B S ts).countP (fun o => o.warnNotified) ≤ 1) := by
  refine ⟨?_, ?_, fun ts hpos => runTokenDay_warn_once B ts S hpos⟩
  · unfold trackTokenUsage
    simp only [Option.getD]
    split_ifs with h1 h2
    · rw [decide_eq_false (by omega : ¬ (S + t ≤ B))]
    · rw [decide_eq_true (by omega : S + t ≤ B)]
    · rw [decide_eq_true (by omega : S + t ≤ B)]
  · unfold trackTokenUsage
    simp only [Option.getD]
    split_ifs with h1 h2
    · rw [decide_eq_false
        (by omega : ¬ (S + t ≤ B ∧ 5 * S < 4 * B ∧ 4 * B ≤ 5 * (S + t)))]
    · rw [decide_eq_true
        (⟨by omega, h2⟩ : S + t ≤ B ∧ 5 * S < 4 * B ∧ 4 * B ≤ 5 * (S + t))]
    · rw [decide_eq_false
        (by omega : ¬ (S + t ≤ B ∧ 5 * S < 4 * B ∧ 4 * B ≤ 5 * (S + t)))]

/-- Witness for the amended C5 on a concrete day of spends. -/
theorem trackTokenUsage_amended_witness :
    (runTokenDay 100 0 [50, 40, 40]).countP (fun o => o.warnNotified) ≤ 1 :=
  (trackTokenUsage_amended 100 0 0).2.2 [50, 40, 40] (by decide)

/-- C6 counterexample: with a configured Threads token and a publishing call
that raises, `createAndPostContent` succeeds anyway — the catch falls back to
a demo identifier, the Post keeps status `published` with no error text, and
the result has `success = true`, contradicting the claimed `failed`/
`success=false` behaviour. -/
theorem createAndPost_publish_error_cex :
    (createAndPostContent ⟨[], [], [], []⟩
        ⟨1, 1, ("汎用"), ⟨2025, 1, 1, 0⟩, ("daily"), true, none, none, 0⟩
        ("hello") ("generic_post")
        ⟨⟨0, 1, 1, 0⟩, true, 0, Except.ok (""), Except.ok (), 0,
         ⟨Except.ok 7, Except.error ("Threads API down"), Except.ok (), Except.ok (), 4, 2⟩,
         ⟨Except.ok 8, Except.ok (), Except.ok (), Except.ok (), 0, 0⟩,
         Except.ok (), Except.ok ()⟩
        ⟨Except.ok 7, Except.error ("Threads API down"), Except.ok (), Except.ok (), 4, 2⟩).result
      = Except.ok ⟨1, true, ("generic_post executed successfully"), none, some 7, some ("demo_0")⟩ ∧
    (createAndPostContent ⟨[], [], [], []⟩
        ⟨1, 1, ("汎用"), ⟨2025, 1, 1, 0⟩, ("daily"), true, none, none, 0⟩
        ("hello") ("generic_post")
        ⟨⟨0, 1, 1, 0⟩, true, 0, Except.ok (""), Except.ok (), 0,
         ⟨Except.ok 7, Except.error ("Threads API down"), Except.ok (), Except.ok (), 4, 2⟩,
         ⟨Except.ok 8, Except.ok (), Except.ok (), Except.ok (), 0, 0⟩,
         Except.ok (), Except.ok ()⟩
        ⟨Except.ok 7, Except.error ("Threads API down"), Except.ok (), Except.ok (), 4, 2⟩).db.posts.map
        (fun p => (p.status, p.error)) = [(("published"), none)] := by
  exact ⟨by decide, by decide⟩

/-- C6 amended: the publish step consults no call-rate check.  An error from
the external publishing call is swallowed: the executor falls back to a demo
remote identifier and returns `success = true` with the Post left
`published` and no error text.  A per-schedule result with `success = false`
and a non-empty error arises when a database write in the pipeline throws
(the Post is then not created), and the sweep still proceeds to the
bookkeeping step for a schedule whose execution returned a result. -/
theorem publish_failure_behaviour_amended (db : DB) (s : Schedule) (content ty : String)
    (env : ExecEnv) (pe : PostEnv) (pid : Nat) (e : String) :
    (pe.postCreate = Except.ok pid → env.hasThreadsToken = true →
      pe.threadsApi = Except.error e → pe.postUpdate = Except.ok () →
      pe.successLog = Except.ok () →
      (createAndPostContent db s content ty env pe).result
        = Except.ok ⟨s.id, true, ty ++ (" executed successfully"), none, some pid,
            some (("demo_") ++ toString env.now.toMs)⟩) ∧
    (pe.postCreate = Except.error e →
      (createAndPostContent db s content ty env pe).result = Except.error e ∧
      (createAndPostContent db s content ty env pe).db = db) ∧
    (s.name ≠ ("毎日の挨拶投稿") → s.name ≠ ("AI自動投稿") →
      env.postMain.postCreate = Except.error e → env.failLog = Except.ok () →
      (executeSchedule db s env).result
        = Except.ok ⟨s.id, false, ("Execution failed"), some e, none, none⟩) ∧
    (∀ res : ScheduleExecutionResult, (executeSchedule db s env).result = Except.ok res →
      env.schedUpdate = Except.ok () →
      processDue (fun _ => env) db 0 [s]
        = (writeSchedule (executeSchedule db s env).db
             (updateScheduleAfterExecution s res.success env.now),
           (executeSchedule db s env).events, [res])) := by
  refine ⟨?_, ?_, ?_, ?_⟩
  · intro h1 h2 h3 h4 h5
    simp [createAndPostContent, h1, h2, h3, h4, h5]
  · intro h
    exact ⟨by simp [createAndPostContent, h], by simp [createAndPostContent, h]⟩
  · intro hn1 hn2 hpc hfl
    unfold executeSchedule executeGenericPost
    rw [if_neg hn1, if_neg hn2]
    simp [createAndPostContent, hpc, hfl]
  · intro res hres hupd
    simp only [processDue, hres, hupd]
    simp
/-- Witness for the amended C6: a failing Post creation yields a failed
result with the error text. -/
theorem publish_failure_behaviour_amended_witness :
    (executeSchedule ⟨[], [], [], []⟩
        ⟨2, 1, ("その他"), ⟨2025, 1, 1, 0⟩, ("daily"), true, none, none, 0⟩
        ⟨⟨0, 1, 1, 0⟩, false, 0, Except.ok (""), Except.ok (), 0,
         ⟨Except.error ("DB down"), Except.ok (), Except.ok (), Except.ok (), 0, 0⟩,
         ⟨Except.ok 9, Except.ok (), Except.ok (), Except.ok (), 0, 0⟩,
         Except.ok (), Except.ok ()⟩).result
      = Except.ok ⟨2, false, ("Execution failed"), some ("DB down"), none, none⟩ :=
  (publish_failure_behaviour_amended ⟨[], [], [], []⟩
      ⟨2, 1, ("その他"), ⟨2025, 1, 1, 0⟩, ("daily"), true, none, none, 0⟩
      ("x") ("y")
      ⟨⟨0, 1, 1, 0⟩, false, 0, Except.ok (""), Except.ok (), 0,
       ⟨Except.error ("DB down"), Except.ok (), Except.ok (), Except.ok (), 0, 0⟩,
       ⟨Except.ok 9, Except.ok (), Except.ok (), Except.ok (), 0, 0⟩,
       Except.ok (), Except.ok ()⟩
      ⟨Except.ok 1, Except.ok (), Except.ok (), Except.ok (), 0, 0⟩ 1
      ("DB down")).2.2.1 (by decide) (by decide) rfl rfl


lemma createAndPost_events_sub (db : DB) (s : Schedule) (content ty : String)
    (env : ExecEnv) (pe : PostEnv) :
    ∀ x ∈ (createAndPostContent db s content ty env pe).events,
      x = ExtEvent.threadsPublishCall := by
  unfold createAndPostContent
  rcases pe.postCreate with e | pid
  · simp
  · rcases pe.postUpdate with e2 | u <;> rcases pe.successLog with e3 | v <;>
      split_ifs <;> simp

lemma executeAIPost_events_sub (db : DB) (s : Schedule) (env : ExecEnv) :
    ∀ x ∈ (executeAIPost db s env).events,
      x = ExtEvent.generationCall ∨ x = ExtEvent.threadsPublishCall := by
  unfold executeAIPost
  rcases env.genResult with e | content
  · rcases hcp : createAndPostContent db s fallbackContent ("fallback_post") env env.postFallback
      with ⟨db2, evs, res⟩
    dsimp only
    intro x hx
    rcases List.mem_cons.mp hx with h | h
    · exact Or.inl h
    · have := createAndPost_events_sub db s fallbackContent ("fallback_post") env env.postFallback
      rw [hcp] at this
      exact Or.inr (this x h)
  · rcases env.aiGenCreate with e2 | u
    · rcases hcp : createAndPostContent db s fallbackContent ("fallback_post") env env.postFallback
        with ⟨db2, evs, res⟩
      dsimp only
      intro x hx
      rcases List.mem_cons.mp hx with h | h
      · exact Or.inl h
      · have := createAndPost_events_sub db s fallbackContent ("fallback_post") env env.postFallback
        rw [hcp] at this
        exact Or.inr (this x h)
    · dsimp only
      rcases hcp : createAndPostContent
          { db with aiGenerations := db.aiGenerations ++
              [⟨s.userId, topics.getD env.rngIdx (""), content,
                "gemini-1.5-flash", env.rngTokens⟩] }
          s content ("ai_post") env env.postMain with ⟨db2, evs, res⟩
      have hev := createAndPost_events_sub
        { db with aiGenerations := db.aiGenerations ++
            [⟨s.userId, topics.getD env.rngIdx (""), content,
              "gemini-1.5-flash", env.rngTokens⟩] }
        s content ("ai_post") env env.postMain
      rw [hcp] at hev
      rcases res with e3 | r
      · have hev2 := createAndPost_events_sub db2 s fallbackContent ("fallback_post") env env.postFallback
        dsimp only
        intro x hx
        rcases List.mem_cons.mp hx with h | h
        · exact Or.inl h
        · rcases List.mem_append.mp h with h2 | h2
          · exact Or.inr (hev x h2)
          · exact Or.inr (hev2 x h2)
      · dsimp only
        intro x hx
        rcases List.mem_cons.mp hx with h | h
        · exact Or.inl h
        · exact Or.inr (hev x h)

lemma executeSchedule_events_sub (db : DB) (s : Schedule) (env : ExecEnv) :
    ∀ x ∈ (executeSchedule db s env).events,
      x = ExtEvent.generationCall ∨ x = ExtEvent.threadsPublishCall := by
  unfold executeSchedule
  split_ifs with h1 h2
  · rcases hcp : executeGreetingPost db s env with ⟨db2, evs, res⟩
    have hev := createAndPost_events_sub db s (greetings.getD env.rngIdx ("")) ("greeting_post")
      env env.postMain
    rw [show createAndPostContent db s (greetings.getD env.rngIdx ("")) ("greeting_post")
          env env.postMain = executeGreetingPost db s env from rfl, hcp] at hev
    rcases res with e | r
    · rcases env.failLog with e2 | u <;> · dsimp only; intro x hx; exact Or.inr (hev x hx)
    · intro x hx
      exact Or.inr (hev x hx)
  · rcases hcp : executeAIPost db s env with ⟨db2, evs, res⟩
    have hev := executeAIPost_events_sub db s env
    rw [hcp] at hev
    rcases res with e | r
    · rcases env.failLog with e2 | u <;> · dsimp only; intro x hx; exact hev x hx
    · intro x hx
      exact hev x hx
  · rcases hcp : executeGenericPost db s env with ⟨db2, evs, res⟩
    have hev := createAndPost_events_sub db s
      (("定期投稿: ") ++ s.name ++ (" 📅 ") ++ toString env.now.toMs) ("generic_post")
      env env.postMain
    rw [show createAndPostContent db s
          (("定期投稿: ") ++ s.name ++ (" 📅 ") ++ toString env.now.toMs) ("generic_post")
          env env.postMain = executeGenericPost db s env from rfl, hcp] at hev
    rcases res with e | r
    · rcases env.failLog with e2 | u <;> · dsimp only; intro x hx; exact Or.inr (hev x hx)
    · intro x hx
      exact Or.inr (hev x hx)

/-- C7 counterexample: with maintenance mode active (the maintenance
collaborator reports `isMaintenanceMode = true`), an AI-schedule execution
still performs the external generation and publish calls and never queries
the maintenance collaborator — the pipeline does not consult the maintenance
gate at all. -/
theorem executor_ignores_maintenance_cex :
    (checkMaintenanceMode (Except.ok ⟨some ("true"), none, none, none⟩) 0).isMaintenanceMode
        = true ∧
    ExtEvent.generationCall ∈ (executeSchedule ⟨[], [], [], []⟩
        ⟨4, 1, ("AI自動投稿"), ⟨2025, 1, 1, 0⟩, ("daily"), true, none, none, 0⟩
        ⟨⟨0, 1, 1, 0⟩, true, 0, Except.ok ("生成結果"), Except.ok (), 120,
         ⟨Except.ok 11, Except.ok (), Except.ok (), Except.ok (), 1, 1⟩,
         ⟨Except.ok 12, Except.ok (), Except.ok (), Except.ok (), 0, 0⟩,
         Except.ok (), Except.ok ()⟩).events ∧
    ExtEvent.threadsPublishCall ∈ (executeSchedule ⟨[], [], [], []⟩
        ⟨4, 1, ("AI自動投稿"), ⟨2025, 1, 1, 0⟩, ("daily"), true, none, none, 0⟩
        ⟨⟨0, 1, 1, 0⟩, true, 0, Except.ok ("生成結果"), Except.ok (), 120,
         ⟨Except.ok 11, Except.ok (), Except.ok (), Except.ok (), 1, 1⟩,
         ⟨Except.ok 12, Except.ok (), Except.ok (), Except.ok (), 0, 0⟩,
         Except.ok (), Except.ok ()⟩).events ∧
    ExtEvent.maintenanceQuery ∉ (executeSchedule ⟨[], [], [], []⟩
        ⟨4, 1, ("AI自動投稿"), ⟨2025, 1, 1, 0⟩, ("daily"), true, none, none, 0⟩
        ⟨⟨0, 1, 1, 0⟩, true, 0, Except.ok ("生成結果"), Except.ok (), 120,
         ⟨Except.ok 11, Except.ok (), Except.ok (), Except.ok (), 1, 1⟩,
         ⟨Except.ok 12, Except.ok (), Except.ok (), Except.ok (), 0, 0⟩,
         Except.ok (), Except.ok ()⟩).events := by
  exact ⟨by decide, by decide, by decide, by decide⟩

/-- C7 amended: the executor pipeline never consults the maintenance
collaborator — external calls proceed regardless of maintenance mode.  The
maintenance gate exists only in the HTTP middleware: while maintenance mode
is active, a request that is not an admin settings/notifications/maintenance
API and has no emergency access is refused with 503 and its handler never
runs; outside maintenance mode the handler always runs. -/
theorem maintenance_gate_amended :
    (∀ (db : DB) (s : Schedule) (env : ExecEnv),
        ExtEvent.maintenanceQuery ∉ (executeSchedule db s env).events) ∧
    (∀ (q : Except String MaintSettings) (nowMs : Int) (handler : NextResponse),
        (checkMaintenanceMode q nowMs).isMaintenanceMode = true →
        (checkMaintenanceMode q nowMs).emergencyAccess = false →
        maintenanceMiddleware q nowMs false handler
          = (false, ⟨503, ("Service Unavailable")⟩)) ∧
    (∀ (q : Except String MaintSettings) (nowMs : Int) (isAdminApi : Bool)
        (handler : NextResponse),
        (checkMaintenanceMode q nowMs).isMaintenanceMode = false →
        maintenanceMiddleware q nowMs isAdminApi handler = (true, handler)) := by
  refine ⟨?_, ?_, ?_⟩
  · intro db s env hmem
    rcases executeSchedule_events_sub db s env ExtEvent.maintenanceQuery hmem with h | h <;>
      exact ExtEvent.noConfusion h
  · intro q nowMs handler hm he
    unfold maintenanceMiddleware
    rw [if_pos hm]
    rw [he]
    simp
  · intro q nowMs isAdminApi handler hm
    unfold maintenanceMiddleware
    rw [if_neg (by rw [hm]; exact Bool.false_ne_true)]

/-- Witness for the amended C7: a non-admin request during active maintenance
with emergency access off is blocked with 503. -/
theorem maintenance_gate_amended_witness :
    maintenanceMiddleware (Except.ok ⟨some ("true"), none, none, none⟩) 0 false ⟨200, ("ok")⟩
      = (false, ⟨503, ("Service Unavailable")⟩) :=
  maintenance_gate_amended.2.1 (Except.ok ⟨some ("true"), none, none, none⟩) 0 ⟨200, ("ok")⟩
    (by decide) (by decide)

/-- C9 counterexample: the executor's post update writes random demo values
into a Post's `views` and `engagements` (here 5 and 3, overwriting the
creation defaults of 0) — the engagement counters are not left to the
external analytics collaborator. -/
theorem executor_mutates_engagement_cex :
    (createAndPostContent ⟨[], [], [], []⟩
        ⟨5, 2, ("汎用"), ⟨2025, 1, 1, 0⟩, ("daily"), true, none, none, 0⟩
        ("content") ("generic_post")
        ⟨⟨0, 1, 1, 0⟩, false, 0, Except.ok (""), Except.ok (), 0,
         ⟨Except.ok 21, Except.ok (), Except.ok (), Except.ok (), 5, 3⟩,
         ⟨Except.ok 22, Except.ok (), Except.ok (), Except.ok (), 0, 0⟩,
         Except.ok (), Except.ok ()⟩
        ⟨Except.ok 21, Except.ok (), Except.ok (), Except.ok (), 5, 3⟩).db.posts.map
        (fun p => (p.views, p.engagements)) = [(5, 3)] ∧
    ((5 : Int) ≠ 0 ∨ (3 : Int) ≠ 0) := by
  exact ⟨by decide, by decide⟩

/-- C9 amended: on the happy path the executor's post update sets the new
Post's `views` and `engagements` to the random demo values drawn for the run
(`Math.floor(Math.random()*50)` and `*10` in the source), leaving other rows
alone — the core does mutate the engagement counters of the Post it
creates. -/
theorem createAndPost_rng_metrics (db : DB) (s : Schedule) (content ty : String)
    (env : ExecEnv) (pe : PostEnv) (pid : Nat) :
    pe.postCreate = Except.ok pid → pe.postUpdate = Except.ok () →
    pe.successLog = Except.ok () → (∀ p ∈ db.posts, p.id ≠ pid) →
    (createAndPostContent db s content ty env pe).db.posts.map Post.views
        = db.posts.map Post.views ++ [pe.rngViews] ∧
    (createAndPostContent db s content ty env pe).db.posts.map Post.engagements
        = db.posts.map Post.engagements ++ [pe.rngEngagements] := by
  intro h1 h2 h3 hfresh
  unfold createAndPostContent
  rw [h1, h2, h3]
  dsimp only
  constructor <;>
  · simp only [List.map_append, List.map_map, List.map_cons, List.map_nil]
    congr 1
    all_goals
      apply List.map_congr_left
      intro p hp
      simp [Function.comp, hfresh p hp]

/-- Witness for the amended C9 at a concrete run. -/
theorem createAndPost_rng_metrics_witness :
    (createAndPostContent ⟨[], [], [], []⟩
        ⟨6, 2, ("汎用"), ⟨2025, 1, 1, 0⟩, ("daily"), true, none, none, 0⟩
        ("content") ("generic_post")
        ⟨⟨0, 1, 1, 0⟩, false, 0, Except.ok (""), Except.ok (), 0,
         ⟨Except.ok 30, Except.ok (), Except.ok (), Except.ok (), 49, 9⟩,
         ⟨Except.ok 31, Except.ok (), Except.ok (), Except.ok (), 0, 0⟩,
         Except.ok (), Except.ok ()⟩
        ⟨Except.ok 30, Except.ok (), Except.ok (), Except.ok (), 49, 9⟩).db.posts.map Post.views
      = ([] : List Post).map Post.views ++ [49] :=
  (createAndPost_rng_metrics ⟨[], [], [], []⟩
      ⟨6, 2, ("汎用"), ⟨2025, 1, 1, 0⟩, ("daily"), true, none, none, 0⟩
      ("content") ("generic_post")
      ⟨⟨0, 1, 1, 0⟩, false, 0, Except.ok (""), Except.ok (), 0,
       ⟨Except.ok 30, Except.ok (), Except.ok (), Except.ok (), 49, 9⟩,
       ⟨Except.ok 31, Except.ok (), Except.ok (), Except.ok (), 0, 0⟩,
       Except.ok (), Except.ok ()⟩
      ⟨Except.ok 30, Except.ok (), Except.ok (), Except.ok (), 49, 9⟩ 30
      rfl rfl rfl (by simp)).1

/-- C10: every governance and gating check fails open: an error inside the
rate-limit middleware runs the wrapped handler, an error anywhere inside the
token-budget check returns allowed, an error inside the token middleware runs
the handler, and a failed settings read makes the maintenance check report
not-in-maintenance with emergency access disabled. -/
theorem governance_fails_open (e : String) (handler : NextResponse)
    (agg : Except String (Option Int)) (t : Int) (dn wn : Except String Unit)
    (nowMs : Int) (so : Option Int) :
    rateLimitMiddleware (Except.error e) handler = (true, handler) ∧
    tokenLimitMiddleware (Except.error e) handler = (true, handler) ∧
    trackTokenUsage (Except.error e) agg t dn wn = ⟨true, false, false⟩ ∧
    trackTokenUsage (Except.ok so) (Except.error e) t dn wn = ⟨true, false, false⟩ ∧
    checkMaintenanceMode (Except.error e) nowMs = ⟨false, false, none⟩ :=
  ⟨rfl, rfl, rfl, rfl, rfl⟩
